import Mathlib

/-!
Verification of the document-assembly engine of `google_drive.py`
(Vlaamse Chroniqueur).

The Python module builds a Google Doc in four phases:
1. `_build_document_text` assembles one text buffer while recording
   `StyleEvent` ranges and `ImageSlot` offsets;
2. `_insert_text` inserts the whole buffer at index 1;
3. `_apply_formatting` turns every `StyleEvent` into one or two requests and
   submits them in chunks of `BATCH_SIZE`;
4. `_insert_images` inserts one image per slot, highest offset first, each
   insertion wrapped in a try/except that logs a warning.

This file is a shallow embedding of those phases.  Remote `batchUpdate`
calls are modelled by a success oracle (`Nat → Bool`, one bit per call):
phase 3 has no exception handler in the source, so a failed call
propagates; phase 4 catches failures, records a warning, and continues.
-/

namespace VlaamseChroniqueur

/-- `BATCH_SIZE = 50` from `google_drive.py`. -/
def BATCH_SIZE : Nat := 50

/-- Colour constants (RGB 0-255) from `google_drive.py`. -/
def COLOR_NAVY : Nat × Nat × Nat := (0x1A, 0x35, 0x69)

def COLOR_BURGUNDY : Nat × Nat × Nat := (0x61, 0x1E, 0x1E)

def COLOR_GREEN : Nat × Nat × Nat := (0x2D, 0x6A, 0x2D)

def COLOR_STEEL : Nat × Nat × Nat := (0x1F, 0x5C, 0x99)

def COLOR_GREY : Nat × Nat × Nat := (0x55, 0x55, 0x55)

/-- `StyleEvent` dataclass: a half-open range `[start, end)` into the
assembled buffer plus optional style attributes.  `None` defaults become
`Option.none`, `0` spacing means unset (Python falsiness). -/
structure StyleEvent where
  start : Nat
  «end» : Nat
  named_style : Option String := none
  color_rgb : Option (Nat × Nat × Nat) := none
  bold : Bool := false
  italic : Bool := false
  space_above_pt : Nat := 0
  space_below_pt : Nat := 0
  alignment : Option String := none
  link_url : Option String := none
deriving Repr, DecidableEq

/-- `ImageSlot` dataclass: a buffer offset plus an image URL. -/
structure ImageSlot where
  offset : Nat
  url : String
deriving Repr, DecidableEq

/-- Python truthiness of an optional string: `None` and `""` are falsy. -/
def strOptTruthy : Option String → Bool
  | none => false
  | some s => !s.isEmpty

/-- Weather sub-dict of a shooting-plan day (`day_plan["weather"]`), with the
defaults `_build_document_text` supplies for missing keys. -/
structure Weather where
  condition : String := "unknown"
  temp_c : Option Int := none
  rain_mm : Int := 0
deriving Repr, DecidableEq

/-- One entry of `script["shooting_plan"]`. -/
structure DayPlan where
  day : String := ""
  date : String := ""
  weather : Weather := {}
  recommended : Bool := false
  venue : String := "outdoor"
  indoor_alternative : Option String := none
  shots : List String := []
deriving Repr, DecidableEq

/-- One entry of `script_nl["sections"]` / `script_en["sections"]`. -/
structure ScriptSection where
  title : String := ""
  commentary : String := ""
  location_notes : String := ""
deriving Repr, DecidableEq

/-- `script["script_nl"]` / `script["script_en"]`. -/
structure ScriptContent where
  intro : String := ""
  sections : List ScriptSection := []
  outro : String := ""
deriving Repr, DecidableEq

/-- `script["editing_guide"]`. -/
structure EditingGuide where
  «structure» : String := ""
  transitions : String := ""
  b_roll_suggestions : List String := []
  music_timing : String := ""
deriving Repr, DecidableEq

/-- `script["resources"]`. -/
structure Resources where
  footage_tips : List String := []
  music_suggestions : List String := []
  quote_sources : List String := []
  archives : List String := []
deriving Repr, DecidableEq

/-- The `script` dict consumed by `_build_document_text`.  `image_urls` is a
list of optional URLs (`main.py` appends `find_image_url`'s `str | None`
results).  Missing keys are modelled by the field defaults. -/
structure ScriptPackage where
  topic : String := ""
  wikipedia_url : String := ""
  shooting_plan : List DayPlan := []
  script_nl : ScriptContent := {}
  script_en : ScriptContent := {}
  editing_guide : EditingGuide := {}
  resources : Resources := {}
  image_urls : List (Option String) := []
deriving Repr, DecidableEq

/-- Mutable state of `_build_document_text`: the fragment buffer `buf` and
the accumulated `events` and `slots` lists. -/
structure BuildState where
  buf : List String := []
  events : List StyleEvent := []
  slots : List ImageSlot := []
deriving Repr, DecidableEq

/-- `pos()`: `sum(len(s) for s in buf)`. -/
def pos (buf : List String) : Nat := (buf.map String.length).sum

/-- The common shape of every emission primitive: record `start := pos()`,
append `text` to the buffer, and push one `StyleEvent` whose `start`/`end`
bracket the appended fragment (the other attributes come from `attrs`). -/
def emitEvent (st : BuildState) (text : String) (attrs : StyleEvent) : BuildState :=
  let start := pos st.buf
  let buf1 := st.buf ++ [text]
  { st with
      buf := buf1
      events := st.events ++ [{ attrs with start := start, «end» := pos buf1 }] }

/-- `heading1(text, color)`. -/
def heading1 (st : BuildState) (text : String) (color : Nat × Nat × Nat) : BuildState :=
  emitEvent st (text ++ "\n")
    { start := 0, «end» := 0, named_style := some "HEADING_1", color_rgb := some color,
      space_above_pt := 20, space_below_pt := 6, alignment := some "START" }

/-- `heading2(text, color)`. -/
def heading2 (st : BuildState) (text : String) (color : Nat × Nat × Nat) : BuildState :=
  emitEvent st (text ++ "\n")
    { start := 0, «end» := 0, named_style := some "HEADING_2", color_rgb := some color,
      space_above_pt := 16, space_below_pt := 4, alignment := some "START" }

/-- `body(text, italic, color)`. -/
def body (st : BuildState) (text : String) (italic : Bool)
    (color : Option (Nat × Nat × Nat)) : BuildState :=
  emitEvent st (text ++ "\n")
    { start := 0, «end» := 0, named_style := some "NORMAL_TEXT", italic := italic,
      color_rgb := color, space_below_pt := 8, alignment := some "JUSTIFIED" }

/-- `image_placeholder(url)`: emit a one-character `"\n"` fragment with a
centred NORMAL_TEXT event, then push an `ImageSlot` at the fragment's
start offset. -/
def image_placeholder (st : BuildState) (url : String) : BuildState :=
  let start := pos st.buf
  let st1 := emitEvent st "\n"
    { start := 0, «end» := 0, named_style := some "NORMAL_TEXT",
      alignment := some "CENTER", space_above_pt := 10, space_below_pt := 14 }
  { st1 with slots := st1.slots ++ [{ offset := start, url := url }] }

/-- `link_line(label, url)`. -/
def link_line (st : BuildState) (label : String) (url : String) : BuildState :=
  emitEvent st (label ++ "\n")
    { start := 0, «end» := 0, named_style := some "NORMAL_TEXT", italic := true,
      color_rgb := some COLOR_STEEL, link_url := some url, space_below_pt := 18 }

/-- `f"{temp}°C" if temp is not None else "?"`. -/
def tempStr : Option Int → String
  | some t => toString t ++ "°C"
  | none => "?"

/-- Body of the `for i, day_plan in enumerate(shooting_plan)` loop.  The
image placeholder after the first entry fires only when `i == 0`,
`script["image_urls"]` is non-empty (Python list truthiness of
`script.get("image_urls")`) and the URL at position 0 is truthy. -/
def renderDay (script : ScriptPackage) (st : BuildState) (i : Nat) (day_plan : DayPlan) :
    BuildState :=
  let temp_str := tempStr day_plan.weather.temp_c
  let st := heading2 st
    (day_plan.day ++ " " ++ day_plan.date ++ " — " ++ day_plan.weather.condition
      ++ " — " ++ temp_str) COLOR_GREEN
  let st := body st ("Venue: " ++ day_plan.venue) false none
  let st := body st
    ("Rain: " ++ toString day_plan.weather.rain_mm ++ " mm  |  Recommended: "
      ++ (if day_plan.recommended then "Yes" else "No")) false none
  let st := match day_plan.indoor_alternative with
    | some ia =>
        if !ia.isEmpty then body st ("Indoor alternative: " ++ ia) true (some COLOR_GREY)
        else st
    | none => st
  let st :=
    if day_plan.shots.isEmpty then st
    else
      let st := body st "Suggested shots:" false none
      day_plan.shots.foldl (fun s shot => body s ("•  " ++ shot) false none) st
  if i == 0 && !script.image_urls.isEmpty then
    let first_url := script.image_urls.getD 0 none
    if strOptTruthy first_url then image_placeholder st (first_url.getD "") else st
  else st

/-- `image_urls[image_idx]` with Python semantics folded into one read:
out-of-range and `None` entries both give `none`. -/
def urlAt (image_urls : List (Option String)) (i : Nat) : Option String :=
  image_urls.getD i none

/-- The shared-cursor image step of `render_script_section`:
`if image_idx < len(image_urls) and image_urls[image_idx]:` emit a
placeholder and advance the cursor, else leave both unchanged. -/
def tryImageSlot (image_urls : List (Option String)) (st : BuildState) (image_idx : Nat) :
    BuildState × Nat :=
  if image_idx < image_urls.length && strOptTruthy (urlAt image_urls image_idx) then
    (image_placeholder st ((urlAt image_urls image_idx).getD ""), image_idx + 1)
  else (st, image_idx)

/-- Body of the `for section in script_content.get("sections", [])` loop. -/
def renderSection (image_urls : List (Option String)) (acc : BuildState × Nat)
    (sec : ScriptSection) : BuildState × Nat :=
  let st := heading2 acc.1 sec.title COLOR_BURGUNDY
  let st :=
    if !sec.location_notes.isEmpty then
      body st ("Locatie / Location: " ++ sec.location_notes) true (some COLOR_GREY)
    else st
  let st := body st sec.commentary false none
  tryImageSlot image_urls st acc.2

/-- `render_script_section(heading_label, script_content)`: the `nonlocal
image_idx` cursor is threaded explicitly as the second component. -/
def render_script_section (image_urls : List (Option String)) (st : BuildState)
    (image_idx : Nat) (heading_label : String) (script_content : ScriptContent) :
    BuildState × Nat :=
  let st := heading1 st heading_label COLOR_NAVY
  let st := heading2 st "Intro" COLOR_BURGUNDY
  let st := body st script_content.intro false none
  let p := tryImageSlot image_urls st image_idx
  let p := script_content.sections.foldl (renderSection image_urls) p
  let st := heading2 p.1 "Outro" COLOR_BURGUNDY
  let st := body st script_content.outro false none
  (st, p.2)

/-- `resource_section(title, items)`. -/
def resource_section (st : BuildState) (title : String) (items : List String) :
    BuildState :=
  if items.isEmpty then st
  else
    let st := heading2 st title COLOR_BURGUNDY
    items.foldl (fun s item => body s ("•  " ++ item) false none) st

/-- `_build_document_text`, returning its final mutable state.  The week
start date enters only through the formatted `date_label`, modelled as a
plain string. -/
def build_document_text_state (week_start_date : String) (script : ScriptPackage) :
    BuildState :=
  let st : BuildState := {}
  let date_label := week_start_date
  let topic_name := script.topic
  let st := emitEvent st
    ("Vlaamse Chroniqueur — Week of " ++ date_label ++ ": " ++ topic_name ++ "\n")
    { start := 0, «end» := 0, named_style := some "TITLE", alignment := some "CENTER",
      space_below_pt := 10 }
  let st := heading1 st "Filming Schedule" COLOR_NAVY
  let st := script.shooting_plan.enum.foldl (fun s p => renderDay script s p.1 p.2) st
  let image_idx := 1
  let p := render_script_section script.image_urls st image_idx
    "Script — Nederlands" script.script_nl
  let p := render_script_section script.image_urls p.1 p.2
    "Script — English" script.script_en
  let st := p.1
  let st := heading1 st "Editing Guide" COLOR_NAVY
  let st := heading2 st "Structure" COLOR_BURGUNDY
  let st := body st script.editing_guide.«structure» false none
  let st := heading2 st "Transitions" COLOR_BURGUNDY
  let st := body st script.editing_guide.transitions false none
  let st :=
    if script.editing_guide.b_roll_suggestions.isEmpty then st
    else
      let st := heading2 st "B-Roll Suggestions" COLOR_BURGUNDY
      script.editing_guide.b_roll_suggestions.foldl
        (fun s item => body s ("•  " ++ item) false none) st
  let st := heading2 st "Music Timing" COLOR_BURGUNDY
  let st := body st script.editing_guide.music_timing false none
  let st := heading1 st "Resources" COLOR_NAVY
  let st := resource_section st "Where to Find Footage" script.resources.footage_tips
  let st := resource_section st "Music Suggestions" script.resources.music_suggestions
  let st := resource_section st "Quotes and Sources" script.resources.quote_sources
  let st := resource_section st "Archives" script.resources.archives
  let st :=
    if !script.wikipedia_url.isEmpty then
      link_line st ("Wikipedia: " ++ topic_name) script.wikipedia_url
    else st
  st

/-- `_build_document_text`'s return value:
`("".join(buf), events, slots)`. -/
def build_document_text (week_start_date : String) (script : ScriptPackage) :
    String × List StyleEvent × List ImageSlot :=
  let st := build_document_text_state week_start_date script
  (String.join st.buf, st.events, st.slots)

/-- The `paragraphStyle` dict of an `updateParagraphStyle` request: a key is
present (`some`) exactly when `_apply_formatting` set it. -/
structure ParagraphStyle where
  namedStyleType : Option String := none
  alignment : Option String := none
  spaceAbove : Option Nat := none
  spaceBelow : Option Nat := none
deriving Repr, DecidableEq

/-- The `textStyle` dict of an `updateTextStyle` request. -/
structure TextStyle where
  foregroundColor : Option (Nat × Nat × Nat) := none
  bold : Option Bool := none
  italic : Option Bool := none
  link : Option String := none
deriving Repr, DecidableEq

/-- One request of a `documents.batchUpdate` body, as built by
`_apply_formatting` (offsets already shifted by the 1-based anchor). -/
inductive DocRequest where
  | updateParagraphStyle (startIndex endIndex : Nat)
      (paragraphStyle : ParagraphStyle) (fields : List String)
  | updateTextStyle (startIndex endIndex : Nat)
      (textStyle : TextStyle) (fields : List String)
deriving Repr, DecidableEq

/-- The `startIndex` of a request's range. -/
def reqStart : DocRequest → Nat
  | .updateParagraphStyle s _ _ _ => s
  | .updateTextStyle s _ _ _ => s

/-- `style_fields` accumulated for the paragraph request (in the source's
append order); a name enters the mask exactly when its `if` fired. -/
def paraFields (ev : StyleEvent) : List String :=
  (if strOptTruthy ev.named_style then ["namedStyleType"] else [])
    ++ (if strOptTruthy ev.alignment then ["alignment"] else [])
    ++ (if ev.space_above_pt ≠ 0 then ["spaceAbove"] else [])
    ++ (if ev.space_below_pt ≠ 0 then ["spaceBelow"] else [])

/-- The `paragraphStyle` dict accumulated by the same `if` chain. -/
def paraStyleOf (ev : StyleEvent) : ParagraphStyle :=
  { namedStyleType := if strOptTruthy ev.named_style then ev.named_style else none
    alignment := if strOptTruthy ev.alignment then ev.alignment else none
    spaceAbove := if ev.space_above_pt ≠ 0 then some ev.space_above_pt else none
    spaceBelow := if ev.space_below_pt ≠ 0 then some ev.space_below_pt else none }

/-- `text_fields` accumulated for the text request. -/
def textFields (ev : StyleEvent) : List String :=
  (if ev.color_rgb.isSome then ["foregroundColor"] else [])
    ++ (if ev.bold then ["bold"] else [])
    ++ (if ev.italic then ["italic"] else [])
    ++ (if strOptTruthy ev.link_url then ["link"] else [])

/-- The `text_style` dict accumulated by the same `if` chain. -/
def textStyleOf (ev : StyleEvent) : TextStyle :=
  { foregroundColor := ev.color_rgb
    bold := if ev.bold then some true else none
    italic := if ev.italic then some true else none
    link := if strOptTruthy ev.link_url then ev.link_url else none }

/-- `if text_style:` — the dict is non-empty iff one of the four
character-level `if`s fired. -/
def hasTextStyle (ev : StyleEvent) : Bool :=
  ev.color_rgb.isSome || ev.bold || ev.italic || strOptTruthy ev.link_url

/-- The loop body of `_apply_formatting` for one event: a paragraph request
when `if ev.named_style:` is truthy, then a text request when the
`text_style` dict is non-empty.  `start`/`end` are shifted by 1. -/
def deriveEventRequests (ev : StyleEvent) : List DocRequest :=
  (if strOptTruthy ev.named_style then
      [DocRequest.updateParagraphStyle (ev.start + 1) (ev.«end» + 1)
        (paraStyleOf ev) (paraFields ev)]
    else [])
    ++ (if hasTextStyle ev then
      [DocRequest.updateTextStyle (ev.start + 1) (ev.«end» + 1)
        (textStyleOf ev) (textFields ev)]
    else [])

/-- The full `requests` list built by `_apply_formatting`'s event loop. -/
def deriveRequests (events : List StyleEvent) : List DocRequest :=
  events.flatMap deriveEventRequests

/-- Fuel-indexed slicing loop: with enough fuel it yields
`requests[i : i + BATCH_SIZE]` for `i in range(0, len(requests), BATCH_SIZE)`. -/
def chunksOfAux : Nat → List DocRequest → List (List DocRequest)
  | 0, _ => []
  | _ + 1, [] => []
  | fuel + 1, l => l.take BATCH_SIZE :: chunksOfAux fuel (l.drop BATCH_SIZE)

/-- The successive `chunk`s submitted by `_apply_formatting`
(`l.length` is always enough fuel, as each step consumes ≥ 1 element). -/
def chunksOf (l : List DocRequest) : List (List DocRequest) :=
  chunksOfAux l.length l

/-- Submit the chunks one `batchUpdate` at a time; call number `i` succeeds
when `ok i` is true.  The source has no try/except here, so the first
failure stops the loop and propagates: the result is the list of chunks
actually submitted plus a success flag. -/
def submitChunks (chunks : List (List DocRequest)) (ok : Nat → Bool) (i : Nat) :
    List (List DocRequest) × Bool :=
  match chunks with
  | [] => ([], true)
  | c :: rest =>
    if ok i then
      let r := submitChunks rest ok (i + 1)
      (c :: r.1, r.2)
    else ([], false)

/-- `_apply_formatting(docs, doc_id, events)` with the remote calls
abstracted by the success oracle `ok`. -/
def apply_formatting (events : List StyleEvent) (ok : Nat → Bool) :
    List (List DocRequest) × Bool :=
  submitChunks (chunksOf (deriveRequests events)) ok 0

/-- `sorted(slots, key=lambda s: s.offset, reverse=True)`: a stable sort,
descending on `offset`. -/
def sortSlotsDesc (slots : List ImageSlot) : List ImageSlot :=
  slots.mergeSort (fun a b => b.offset ≤ a.offset)

/-- `_insert_images(docs, doc_id, slots)` with the remote call for the
`j`-th processed slot abstracted by `ok j`.  Every slot is attempted in
sorted order; a failing call is caught by the source's try/except and
only appends a warning.  Returns (slots attempted in order, warnings). -/
def insert_images (slots : List ImageSlot) (ok : Nat → Bool) :
    List ImageSlot × List String :=
  (sortSlotsDesc slots).enum.foldl
    (fun acc p =>
      if ok p.1 then (acc.1 ++ [p.2], acc.2)
      else (acc.1 ++ [p.2], acc.2 ++ ["Warning: Could not insert image " ++ p.2.url]))
    ([], [])

/-- `create_weekly_doc(week_start_date, script)` reduced to the phases this
development models: phase 1 (assembly), phase 2 (`_insert_text`, success
abstracted by `insert_text_ok`; its failure raises), phase 3
(`_apply_formatting`, a failed batch raises), phase 4 (`_insert_images`,
failures caught per slot).  On success it returns the shareable
`web_view_link` obtained from the Drive service. -/
def create_weekly_doc (week_start_date : String) (script : ScriptPackage)
    (web_view_link : String) (insert_text_ok : Bool)
    (style_ok : Nat → Bool) (image_ok : Nat → Bool) : Except String String :=
  let r := build_document_text week_start_date script
  if insert_text_ok then
    let af := apply_formatting r.2.1 style_ok
    if af.2 then
      let _ := insert_images r.2.2 image_ok
      Except.ok web_view_link
    else Except.error "batchUpdate failed"
  else Except.error "insertText failed"

/-! ## Assembly invariant

`offsetsOk p bs es` states that the style events `es` bracket the buffer
fragments `bs` one-to-one, starting at offset `p`: the `i`-th event's
`start` is the cumulative length of the fragments before fragment `i`
(the value `pos()` returned when the primitive began) and its `end` is
the cumulative length including fragment `i`. -/

def offsetsOk : Nat → List String → List StyleEvent → Prop
  | _, [], [] => True
  | p, t :: bs, e :: es => e.start = p ∧ e.«end» = p + t.length ∧ offsetsOk (p + t.length) bs es
  | _, [], _ :: _ => False
  | _, _ :: _, [] => False

theorem pos_nil : pos [] = 0 := rfl

theorem pos_cons (t : String) (bs : List String) : pos (t :: bs) = t.length + pos bs := by
  simp [pos]

theorem pos_append (bs : List String) (t : String) :
    pos (bs ++ [t]) = pos bs + t.length := by
  simp [pos]

theorem offsetsOk_append :
    ∀ {p : Nat} {bs : List String} {es : List StyleEvent}, offsetsOk p bs es →
      ∀ (t : String) (e : StyleEvent), e.start = p + pos bs → e.«end» = p + pos bs + t.length →
        offsetsOk p (bs ++ [t]) (es ++ [e])
  | p, [], [], _, t, e, hs, he => by
      refine ⟨?_, ?_, trivial⟩
      · simpa [pos_nil] using hs
      · simpa [pos_nil] using he
  | p, b :: bs, e' :: es, h, t, e, hs, he => by
      obtain ⟨h1, h2, h3⟩ := h
      refine ⟨h1, h2, ?_⟩
      exact offsetsOk_append h3 t e
        (by rw [hs, pos_cons]; omega) (by rw [he, pos_cons]; omega)

theorem offsetsOk_length :
    ∀ {p : Nat} {bs : List String} {es : List StyleEvent}, offsetsOk p bs es →
      es.length = bs.length
  | _, [], [], _ => rfl
  | _, _ :: _, _ :: _, h => by
      simpa using offsetsOk_length h.2.2

theorem offsetsOk_getElem :
    ∀ {p : Nat} {bs : List String} {es : List StyleEvent}, offsetsOk p bs es →
      ∀ i (hi : i < es.length),
        es[i].start = p + pos (bs.take i) ∧ es[i].«end» = p + pos (bs.take (i + 1)) := by
  intro p bs
  induction bs generalizing p with
  | nil =>
      intro es h i hi
      cases es with
      | nil => exact absurd hi (by simp)
      | cons e es => exact absurd h (by simp [offsetsOk])
  | cons b bs ih =>
      intro es h i hi
      cases es with
      | nil => exact absurd h (by simp [offsetsOk])
      | cons e es =>
          obtain ⟨h1, h2, h3⟩ := h
          cases i with
          | zero =>
              constructor
              · simpa [pos_nil] using h1
              · simpa [pos_nil, pos_cons] using h2
          | succ i =>
              have hi' : i < es.length := by simpa using hi
              have := ih h3 i hi'
              constructor
              · simpa [pos_cons, Nat.add_assoc] using this.1
              · simpa [pos_cons, Nat.add_assoc] using this.2

/-- The invariant maintained by every emission primitive of
`_build_document_text`. -/
structure Inv (st : BuildState) : Prop where
  offsets : offsetsOk 0 st.buf st.events
  named : ∀ e ∈ st.events, strOptTruthy e.named_style = true
  slots_lt : ∀ s ∈ st.slots, s.offset < pos st.buf
  slots_sorted : List.Pairwise (fun a b : ImageSlot => a.offset < b.offset) st.slots

theorem inv_init : Inv {} :=
  ⟨trivial, by simp, by simp, List.Pairwise.nil⟩

theorem inv_emitEvent {st : BuildState} (h : Inv st) {text : String} {attrs : StyleEvent}
    (hn : strOptTruthy attrs.named_style = true) : Inv (emitEvent st text attrs) := by
  constructor
  · exact offsetsOk_append h.offsets text _ (by simp) (by simp [pos_append])
  · intro e he
    rcases List.mem_append.1 he with he | he
    · exact h.named e he
    · simp only [List.mem_singleton] at he
      subst he
      exact hn
  · intro s hs
    have := h.slots_lt s hs
    simp only [emitEvent] at hs ⊢
    rw [pos_append]
    omega
  · exact h.slots_sorted

theorem inv_heading1 {st : BuildState} (h : Inv st) (text : String)
    (color : Nat × Nat × Nat) : Inv (heading1 st text color) :=
  inv_emitEvent h rfl

theorem inv_heading2 {st : BuildState} (h : Inv st) (text : String)
    (color : Nat × Nat × Nat) : Inv (heading2 st text color) :=
  inv_emitEvent h rfl

theorem inv_body {st : BuildState} (h : Inv st) (text : String) (italic : Bool)
    (color : Option (Nat × Nat × Nat)) : Inv (body st text italic color) :=
  inv_emitEvent h rfl

theorem inv_link_line {st : BuildState} (h : Inv st) (label url : String) :
    Inv (link_line st label url) :=
  inv_emitEvent h rfl

theorem inv_image_placeholder {st : BuildState} (h : Inv st) (url : String) :
    Inv (image_placeholder st url) := by
  have h1 : Inv (emitEvent st "\n"
      { start := 0, «end» := 0, named_style := some "NORMAL_TEXT",
        alignment := some "CENTER", space_above_pt := 10, space_below_pt := 14 }) :=
    inv_emitEvent h rfl
  constructor
  · exact h1.offsets
  · exact h1.named
  · intro s hs
    simp only [image_placeholder, emitEvent] at hs ⊢
    rw [pos_append]
    rcases List.mem_append.1 hs with hs | hs
    · have := h.slots_lt s hs
      omega
    · simp only [List.mem_singleton] at hs
      subst hs
      simp only [ImageSlot.mk.injEq]
      have : 0 < "\n".length := by decide
      omega
  · refine List.pairwise_append.2 ⟨h.slots_sorted, List.pairwise_singleton _ _, ?_⟩
    intro a ha b hb
    simp only [List.mem_singleton] at hb
    subst hb
    exact h.slots_lt a ha

theorem inv_tryImageSlot {st : BuildState} (h : Inv st)
    (urls : List (Option String)) (idx : Nat) : Inv (tryImageSlot urls st idx).1 := by
  unfold tryImageSlot
  split
  · exact inv_image_placeholder h _
  · exact h

theorem inv_foldl {β : Type} {f : BuildState → β → BuildState}
    (hf : ∀ (st : BuildState) (b : β), Inv st → Inv (f st b)) :
    ∀ (l : List β) (st : BuildState), Inv st → Inv (l.foldl f st) := by
  intro l
  induction l with
  | nil => intro st h; exact h
  | cons b l ih => intro st h; exact ih _ (hf st b h)

theorem inv_renderDay (script : ScriptPackage) {st : BuildState} (h : Inv st)
    (i : Nat) (day_plan : DayPlan) : Inv (renderDay script st i day_plan) := by
  unfold renderDay
  dsimp only
  repeat' first
    | split
    | apply inv_image_placeholder
    | apply inv_foldl (fun s b hs => inv_body hs _ false none)
    | apply inv_body
    | apply inv_heading2
    | exact h

theorem inv_renderSection (urls : List (Option String)) {p : BuildState × Nat}
    (h : Inv p.1) (sec : ScriptSection) : Inv (renderSection urls p sec).1 := by
  unfold renderSection
  have h1 := inv_heading2 h sec.title COLOR_BURGUNDY
  have h2 : Inv (if !sec.location_notes.isEmpty then
      body (heading2 p.1 sec.title COLOR_BURGUNDY)
        ("Locatie / Location: " ++ sec.location_notes) true (some COLOR_GREY)
    else heading2 p.1 sec.title COLOR_BURGUNDY) := by
    split
    · exact inv_body h1 _ true (some COLOR_GREY)
    · exact h1
  exact inv_tryImageSlot (inv_body h2 sec.commentary false none) urls p.2

theorem inv_foldl_renderSection (urls : List (Option String)) :
    ∀ (l : List ScriptSection) (p : BuildState × Nat), Inv p.1 →
      Inv (l.foldl (renderSection urls) p).1 := by
  intro l
  induction l with
  | nil => intro p h; exact h
  | cons sec l ih => intro p h; exact ih _ (inv_renderSection urls h sec)

theorem inv_render_script_section (urls : List (Option String)) {st : BuildState}
    (h : Inv st) (idx : Nat) (label : String) (content : ScriptContent) :
    Inv (render_script_section urls st idx label content).1 := by
  unfold render_script_section
  have h1 := inv_body (inv_heading2 (inv_heading1 h label COLOR_NAVY) "Intro" COLOR_BURGUNDY)
    content.intro false none
  have h2 := inv_tryImageSlot h1 urls idx
  have h3 := inv_foldl_renderSection urls content.sections _ h2
  exact inv_body (inv_heading2 h3 "Outro" COLOR_BURGUNDY) content.outro false none

theorem inv_resource_section {st : BuildState} (h : Inv st) (title : String)
    (items : List String) : Inv (resource_section st title items) := by
  unfold resource_section
  split
  · exact h
  · exact inv_foldl (fun s it hs => inv_body hs _ false none) _ _
      (inv_heading2 h title COLOR_BURGUNDY)

set_option maxHeartbeats 2000000 in
/-- The invariant holds of `_build_document_text`'s final state, for every
input package. -/
theorem inv_build (week_start_date : String) (script : ScriptPackage) :
    Inv (build_document_text_state week_start_date script) := by
  unfold build_document_text_state
  dsimp only
  repeat' first
    | split
    | apply inv_render_script_section
    | apply inv_link_line
    | apply inv_resource_section
    | apply inv_foldl (fun s b hs => inv_body hs _ false none)
    | apply inv_body
    | apply inv_heading2
    | apply inv_heading1
    | apply inv_foldl (fun s b hs => inv_renderDay script hs b.1 b.2)
    | exact inv_emitEvent inv_init rfl

theorem pos_concat (l₁ l₂ : List String) : pos (l₁ ++ l₂) = pos l₁ + pos l₂ := by
  simp [pos]

theorem pos_take_le (l : List String) {i j : Nat} (h : i ≤ j) :
    pos (l.take i) ≤ pos (l.take j) := by
  have : l.take j = l.take i ++ (l.drop i).take (j - i) := by
    rw [← List.take_add]
    congr 1
    omega
  rw [this, pos_concat]
  omega

theorem pos_take_le_pos (l : List String) (i : Nat) : pos (l.take i) ≤ pos l := by
  have := pos_take_le l (Nat.le_max_left i l.length)
  calc pos (l.take i) ≤ pos (l.take (max i l.length)) := this
    _ = pos l := by
        rw [List.take_of_length_le (by omega)]

theorem foldl_append_length :
    ∀ (l : List String) (s : String), (l.foldl (fun r t => r ++ t) s).length = s.length + pos l
  | [], s => by simp [pos]
  | t :: l, s => by
      rw [List.foldl_cons, foldl_append_length l (s ++ t), String.length_append, pos_cons]
      omega

/-- `"".join(buf)` has length `pos(buf)`: the final buffer length equals the
sum of all fragment lengths. -/
theorem join_length (l : List String) : (String.join l).length = pos l := by
  have : String.join l = l.foldl (fun r t => r ++ t) "" := rfl
  rw [this, foldl_append_length]
  simp

/-- C1.  For every week-start date and ScriptPackage, the assembly phase's
event list brackets the buffer fragments one-to-one: the `i`-th StyleEvent's
`start` equals the cumulative buffer length when its emission primitive
began (`pos` of the fragments before index `i`) and its `end` equals the
buffer length right after the primitive appended its content plus trailing
newline (`pos` of the fragments up to and including index `i`); every
recorded `end` offset is within the final returned text, which is exactly
the concatenation of the recorded fragments — no drift between recorded
offsets and the final buffer. -/
theorem assembly_offsets_no_drift (week_start_date : String) (script : ScriptPackage) :
    (build_document_text_state week_start_date script).events.length
      = (build_document_text_state week_start_date script).buf.length
    ∧ (∀ i, i < (build_document_text_state week_start_date script).events.length →
        ((build_document_text_state week_start_date script).events.getD i
            { start := 0, «end» := 0 }).start
          = pos ((build_document_text_state week_start_date script).buf.take i)
        ∧ ((build_document_text_state week_start_date script).events.getD i
            { start := 0, «end» := 0 }).«end»
          = pos ((build_document_text_state week_start_date script).buf.take (i + 1))
        ∧ ((build_document_text_state week_start_date script).events.getD i
            { start := 0, «end» := 0 }).«end»
          ≤ (build_document_text week_start_date script).1.length)
    ∧ (build_document_text week_start_date script).1
      = String.join (build_document_text_state week_start_date script).buf := by
  have h := (inv_build week_start_date script).offsets
  refine ⟨offsetsOk_length h, ?_, rfl⟩
  intro i hi
  have hg := offsetsOk_getElem h i hi
  rw [List.getD_eq_getElem _ _ hi]
  refine ⟨by simpa using hg.1, by simpa using hg.2, ?_⟩
  have h2 : (build_document_text week_start_date script).1.length
      = pos (build_document_text_state week_start_date script).buf := join_length _
  rw [h2]
  have := pos_take_le_pos (build_document_text_state week_start_date script).buf (i + 1)
  omega

/-- Witness for C1 at a concrete input. -/
theorem assembly_offsets_no_drift_witness :
    0 < (build_document_text_state "w" {}).events.length
    ∧ ((build_document_text_state "w" {}).events.getD 0 { start := 0, «end» := 0 }).start
      = pos ((build_document_text_state "w" {}).buf.take 0) :=
  ⟨by decide, ((assembly_offsets_no_drift "w" {}).2.1 0 (by decide)).1⟩

/-- C7.  The assembly output satisfies the data-model invariants: every
StyleEvent has `start ≤ end` and the event list is in non-decreasing
`start` order; every ImageSlot's offset is strictly below the final buffer
length and the slot list is in strictly increasing offset order. -/
theorem assembly_output_invariants (week_start_date : String) (script : ScriptPackage) :
    (∀ e ∈ (build_document_text week_start_date script).2.1, e.start ≤ e.«end»)
    ∧ List.Pairwise (fun a b : StyleEvent => a.start ≤ b.start)
        (build_document_text week_start_date script).2.1
    ∧ (∀ s ∈ (build_document_text week_start_date script).2.2,
        s.offset < (build_document_text week_start_date script).1.length)
    ∧ List.Pairwise (fun a b : ImageSlot => a.offset < b.offset)
        (build_document_text week_start_date script).2.2 := by
  have hinv := inv_build week_start_date script
  have h := hinv.offsets
  have hlen : (build_document_text week_start_date script).1.length
      = pos (build_document_text_state week_start_date script).buf := join_length _
  rw [show (build_document_text week_start_date script).2.1
        = (build_document_text_state week_start_date script).events from rfl,
      show (build_document_text week_start_date script).2.2
        = (build_document_text_state week_start_date script).slots from rfl]
  refine ⟨?_, ?_, ?_, hinv.slots_sorted⟩
  · intro e he
    obtain ⟨i, hi, rfl⟩ := List.mem_iff_getElem.1 he
    obtain ⟨h1, h2⟩ := offsetsOk_getElem h i hi
    rw [h1, h2]
    have := pos_take_le (build_document_text_state week_start_date script).buf
      (show i ≤ i + 1 by omega)
    omega
  · refine List.pairwise_iff_getElem.2 ?_
    intro i j hi hj hij
    obtain ⟨h1, _⟩ := offsetsOk_getElem h i hi
    obtain ⟨h2, _⟩ := offsetsOk_getElem h j hj
    rw [h1, h2]
    have := pos_take_le (build_document_text_state week_start_date script).buf
      (Nat.le_of_lt hij)
    omega
  · intro s hs
    rw [hlen]
    exact hinv.slots_lt s hs

/-- Witness for C7 at a concrete input. -/
theorem assembly_output_invariants_witness :
    ((build_document_text "w" { image_urls := [some "u"], script_nl :=
        { intro := "i", sections := [], outro := "o" } }).2.1.getD 0
        { start := 0, «end» := 0 }).start
      ≤ ((build_document_text "w" { image_urls := [some "u"], script_nl :=
        { intro := "i", sections := [], outro := "o" } }).2.1.getD 0
        { start := 0, «end» := 0 }).«end» := by
  have hm : (build_document_text "w" { image_urls := [some "u"], script_nl :=
      { intro := "i", sections := [], outro := "o" } }).2.1.getD 0
      { start := 0, «end» := 0 } ∈
      (build_document_text "w" { image_urls := [some "u"], script_nl :=
      { intro := "i", sections := [], outro := "o" } }).2.1 := by decide
  exact (assembly_output_invariants "w" _).1 _ hm

theorem deriveEventRequests_length (ev : StyleEvent) :
    (deriveEventRequests ev).length
      = (if strOptTruthy ev.named_style then 1 else 0)
        + (if hasTextStyle ev then 1 else 0) := by
  unfold deriveEventRequests
  split <;> split <;> simp

/-- C9.  Every StyleEvent constructed by the assembly phase carries a
(non-empty, hence truthy) `named_style`, so style application derives at
least a paragraph-style request for it: between one and two requests per
event, never zero. -/
theorem assembled_events_named_style (week_start_date : String) (script : ScriptPackage) :
    ∀ e ∈ (build_document_text week_start_date script).2.1,
      e.named_style.isSome = true
      ∧ 1 ≤ (deriveEventRequests e).length
      ∧ (deriveEventRequests e).length ≤ 2 := by
  intro e he
  have hn : strOptTruthy e.named_style = true :=
    (inv_build week_start_date script).named e he
  have hs : e.named_style.isSome = true := by
    cases h : e.named_style with
    | none => rw [h] at hn; exact absurd hn (by simp [strOptTruthy])
    | some s => rfl
  refine ⟨hs, ?_, ?_⟩ <;>
    · rw [deriveEventRequests_length, if_pos hn]
      split <;> omega

/-- Witness for C9 at a concrete input. -/
theorem assembled_events_named_style_witness :
    ((build_document_text "w" {}).2.1.getD 0 { start := 0, «end» := 0 }).named_style.isSome
      = true := by
  have hm : (build_document_text "w" {}).2.1.getD 0 { start := 0, «end» := 0 }
      ∈ (build_document_text "w" {}).2.1 := by decide
  exact (assembled_events_named_style "w" {} _ hm).1

/-! ## Batching (phase 3) -/

theorem chunksOfAux_flatten :
    ∀ (fuel : Nat) (l : List DocRequest), l.length ≤ fuel →
      (chunksOfAux fuel l).flatten = l
  | 0, l, h => by
      have : l = [] := List.eq_nil_of_length_eq_zero (by omega)
      subst this
      rfl
  | fuel + 1, [], _ => rfl
  | fuel + 1, a :: l, h => by
      show ((a :: l).take BATCH_SIZE :: chunksOfAux fuel ((a :: l).drop BATCH_SIZE)).flatten
        = a :: l
      rw [List.flatten_cons,
        chunksOfAux_flatten fuel _ (by
          rw [List.length_drop]
          have hb : BATCH_SIZE = 50 := rfl
          simp at h ⊢
          omega),
        List.take_append_drop]

theorem chunksOfAux_sizes :
    ∀ (fuel : Nat) (l : List DocRequest), ∀ c ∈ chunksOfAux fuel l, c.length ≤ BATCH_SIZE
  | 0, _, c, hc => by simp [chunksOfAux] at hc
  | fuel + 1, [], c, hc => by simp [chunksOfAux] at hc
  | fuel + 1, a :: l, c, hc => by
      rw [show chunksOfAux (fuel + 1) (a :: l)
          = (a :: l).take BATCH_SIZE :: chunksOfAux fuel ((a :: l).drop BATCH_SIZE) from rfl]
        at hc
      rcases List.mem_cons.1 hc with hc | hc
      · subst hc
        rw [List.length_take]
        omega
      · exact chunksOfAux_sizes fuel _ c hc

theorem reqStart_deriveEventRequests {ev : StyleEvent} {r : DocRequest}
    (h : r ∈ deriveEventRequests ev) : reqStart r = ev.start + 1 := by
  unfold deriveEventRequests at h
  rcases List.mem_append.1 h with h | h <;>
    [skip; skip] <;> (split at h <;> simp_all [reqStart])

theorem deriveRequests_sorted {events : List StyleEvent}
    (h : List.Pairwise (fun a b : StyleEvent => a.start ≤ b.start) events) :
    List.Pairwise (fun r₁ r₂ => reqStart r₁ ≤ reqStart r₂) (deriveRequests events) := by
  induction events with
  | nil => exact List.Pairwise.nil
  | cons e es ih =>
      rw [show deriveRequests (e :: es)
          = deriveEventRequests e ++ deriveRequests es from List.flatMap_cons ..]
      rcases List.pairwise_cons.1 h with ⟨hhead, htail⟩
      refine List.pairwise_append.2 ⟨?_, ih htail, ?_⟩
      · refine List.pairwise_of_forall_mem_list ?_
        intro a ha b hb
        rw [reqStart_deriveEventRequests ha, reqStart_deriveEventRequests hb]
      · intro a ha b hb
        obtain ⟨eB, heB, hbB⟩ := List.mem_flatMap.1 hb
        rw [reqStart_deriveEventRequests ha, reqStart_deriveEventRequests hbB]
        exact Nat.add_le_add_right (hhead eB heB) 1

theorem submitChunks_all_ok :
    ∀ (chunks : List (List DocRequest)) (i : Nat),
      submitChunks chunks (fun _ => true) i = (chunks, true)
  | [], _ => rfl
  | c :: rest, i => by
      simp [submitChunks, submitChunks_all_ok rest (i + 1)]

/-- C5.  The style-update batches, concatenated, equal the full derived
request list (no request dropped, duplicated, or reordered); each batch is
at most `BATCH_SIZE = 50` requests; and when the events are in
non-decreasing `start` order (as assembly produces them) the derived
request list is in non-decreasing `startIndex` order, within and across
batches. -/
theorem batching_complete (events : List StyleEvent) :
    (apply_formatting events (fun _ => true)).1 = chunksOf (deriveRequests events)
    ∧ (chunksOf (deriveRequests events)).flatten = deriveRequests events
    ∧ (∀ c ∈ chunksOf (deriveRequests events), c.length ≤ BATCH_SIZE)
    ∧ BATCH_SIZE = 50
    ∧ (List.Pairwise (fun a b : StyleEvent => a.start ≤ b.start) events →
        List.Pairwise (fun r₁ r₂ => reqStart r₁ ≤ reqStart r₂) (deriveRequests events)) := by
  refine ⟨?_, chunksOfAux_flatten _ _ le_rfl, chunksOfAux_sizes _ _, rfl,
    fun h => deriveRequests_sorted h⟩
  unfold apply_formatting
  rw [submitChunks_all_ok]

/-- Witness for C5 at a concrete input. -/
theorem batching_complete_witness :
    List.Pairwise (fun r₁ r₂ => reqStart r₁ ≤ reqStart r₂)
      (deriveRequests [{ start := 0, «end» := 5, named_style := some "TITLE" },
        { start := 5, «end» := 9, named_style := some "NORMAL_TEXT", italic := true }]) :=
  (batching_complete _).2.2.2.2 (by decide)

/-! ## Image insertion (phase 4) -/

theorem foldl_insert_step (ok : Nat → Bool) :
    ∀ (ps : List (Nat × ImageSlot)) (acc : List ImageSlot × List String),
      (ps.foldl
        (fun acc p =>
          if ok p.1 then (acc.1 ++ [p.2], acc.2)
          else (acc.1 ++ [p.2], acc.2 ++ ["Warning: Could not insert image " ++ p.2.url]))
        acc).1
      = acc.1 ++ ps.map Prod.snd
  | [], acc => by simp
  | p :: ps, acc => by
      rw [List.foldl_cons]
      cases h : ok p.1 <;> simp [h, foldl_insert_step ok ps]

theorem insert_images_fst (slots : List ImageSlot) (ok : Nat → Bool) :
    (insert_images slots ok).1 = sortSlotsDesc slots := by
  unfold insert_images
  rw [foldl_insert_step, List.enum_map_snd]
  rfl

theorem sortSlotsDesc_sorted (slots : List ImageSlot) :
    List.Pairwise (fun a b : ImageSlot => b.offset ≤ a.offset) (sortSlotsDesc slots) := by
  have h := @List.sorted_mergeSort ImageSlot (fun a b => decide (b.offset ≤ a.offset))
    (fun a b c h1 h2 => by
      simp only [decide_eq_true_eq] at *
      omega)
    (fun a b => by
      simp only [Bool.or_eq_true, decide_eq_true_eq]
      omega)
    slots
  exact h.imp (by intro a b hab; simpa using hab)

theorem sortSlotsDesc_perm (slots : List ImageSlot) :
    (sortSlotsDesc slots).Perm slots :=
  List.mergeSort_perm slots _

theorem sortSlotsDesc_strict {slots : List ImageSlot}
    (h : List.Pairwise (fun a b : ImageSlot => a.offset ≠ b.offset) slots) :
    List.Pairwise (fun a b : ImageSlot => b.offset < a.offset) (sortSlotsDesc slots) := by
  have hne : List.Pairwise (fun a b : ImageSlot => a.offset ≠ b.offset) (sortSlotsDesc slots) :=
    (List.Perm.pairwise_iff (fun hxy => hxy.symm) (sortSlotsDesc_perm slots)).2 h
  exact ((sortSlotsDesc_sorted slots).and hne).imp (by intro a b hab; omega)

unseal List.merge List.mergeSort in
/-- C2 counterexample: for the slot list `[{offset 5, "a"}, {offset 5, "b"}]`
the insertion phase processes two slots of equal offset; after the first
insertion at offset 5 the still-pending slot also has offset 5 — not
strictly less — so the claim's strict invariant fails for this list. -/
theorem image_insertion_strict_desc_counterexample :
    (insert_images [{ offset := 5, url := "a" }, { offset := 5, url := "b" }]
        (fun _ => true)).1
      = [{ offset := 5, url := "a" }, { offset := 5, url := "b" }]
    ∧ ¬ List.Pairwise (fun a b : ImageSlot => b.offset < a.offset)
        (insert_images [{ offset := 5, url := "a" }, { offset := 5, url := "b" }]
          (fun _ => true)).1 := by
  constructor
  · decide
  · decide

/-- C2 (amended).  The image-insertion phase processes slots in
non-increasing offset order; when the slot offsets are pairwise distinct
(as assembly guarantees) the processed order is strictly decreasing, so
after the slot at offset `o` is inserted every still-pending slot has
offset strictly less than `o` and no insertion shifts a pending slot. -/
theorem image_insertion_desc (slots : List ImageSlot) (ok : Nat → Bool) :
    List.Pairwise (fun a b : ImageSlot => b.offset ≤ a.offset) (insert_images slots ok).1
    ∧ (List.Pairwise (fun a b : ImageSlot => a.offset ≠ b.offset) slots →
        List.Pairwise (fun a b : ImageSlot => b.offset < a.offset)
          (insert_images slots ok).1) := by
  rw [insert_images_fst]
  exact ⟨sortSlotsDesc_sorted slots, sortSlotsDesc_strict⟩

/-- Witness for C2's amended theorem at a concrete input. -/
theorem image_insertion_desc_witness :
    List.Pairwise (fun a b : ImageSlot => b.offset < a.offset)
      (insert_images [{ offset := 1, url := "a" }, { offset := 3, url := "b" }]
        (fun _ => true)).1 :=
  (image_insertion_desc _ _).2 (by decide)

/-- C8.  A failing image insertion is caught: independently of which calls
fail, the phase attempts every slot exactly once (the attempted list is a
permutation of the slots, in descending-offset order), and the build's
return value is unchanged. -/
theorem image_failures_best_effort (slots : List ImageSlot) (ok okB : Nat → Bool)
    (week_start_date : String) (script : ScriptPackage) (web_view_link : String)
    (insert_text_ok : Bool) (style_ok : Nat → Bool) :
    (insert_images slots ok).1 = sortSlotsDesc slots
    ∧ (insert_images slots ok).1 = (insert_images slots okB).1
    ∧ ((insert_images slots ok).1).Perm slots
    ∧ create_weekly_doc week_start_date script web_view_link insert_text_ok style_ok ok
      = create_weekly_doc week_start_date script web_view_link insert_text_ok style_ok okB := by
  refine ⟨insert_images_fst slots ok, ?_, ?_, rfl⟩
  · rw [insert_images_fst, insert_images_fst]
  · rw [insert_images_fst]
    exact sortSlotsDesc_perm slots

theorem submitChunks_first_fail (ok : Nat → Bool) :
    ∀ (chunks : List (List DocRequest)) (i k : Nat), k < chunks.length →
      ok (i + k) = false → (∀ j, j < k → ok (i + j) = true) →
      submitChunks chunks ok i = (chunks.take k, false)
  | [], i, k, hk, _, _ => by simp at hk
  | c :: rest, i, 0, _, hfail, _ => by
      simp only [submitChunks, Nat.add_zero] at *
      rw [if_neg (by simp [hfail])]
      rfl
  | c :: rest, i, k + 1, hk, hfail, hbefore => by
      have h0 : ok i = true := by simpa using hbefore 0 (by omega)
      simp only [submitChunks, if_pos h0]
      rw [submitChunks_first_fail ok rest (i + 1) k (by simpa using hk)
        (by rw [show i + 1 + k = i + (k + 1) by omega]; exact hfail)
        (fun j hj => by rw [show i + 1 + j = i + (j + 1) by omega]
                        exact hbefore (j + 1) (by omega))]
      rfl

/-- C4 counterexample: with the default package (whose events yield at
least one style batch) and a failing first batch, `create_weekly_doc`
returns an error — the batch failure is not caught and converted to a
warning; it aborts the build and changes its return value. -/
theorem style_batch_failure_counterexample :
    0 < (chunksOf (deriveRequests (build_document_text "w" {}).2.1)).length
    ∧ create_weekly_doc "w" {} "url" true (fun _ => false) (fun _ => true)
      = Except.error "batchUpdate failed" := by
  constructor
  · decide
  · rfl

/-- C4 (amended).  A style-batch failure is not caught by the source: the
batches before the first failing one remain submitted (no rollback), the
loop stops, and the whole build aborts with an error — its return value is
not preserved. -/
theorem style_batch_failure_aborts (week_start_date : String) (script : ScriptPackage)
    (web_view_link : String) (ok image_ok : Nat → Bool) (k : Nat)
    (hk : k < (chunksOf (deriveRequests (build_document_text week_start_date script).2.1)).length)
    (hfail : ok k = false) (hbefore : ∀ j, j < k → ok j = true) :
    apply_formatting (build_document_text week_start_date script).2.1 ok
      = ((chunksOf (deriveRequests (build_document_text week_start_date script).2.1)).take k,
        false)
    ∧ create_weekly_doc week_start_date script web_view_link true ok image_ok
      = Except.error "batchUpdate failed" := by
  have h1 : apply_formatting (build_document_text week_start_date script).2.1 ok
      = ((chunksOf (deriveRequests (build_document_text week_start_date script).2.1)).take k,
        false) := by
    unfold apply_formatting
    exact submitChunks_first_fail ok _ 0 k hk (by simpa using hfail)
      (fun j hj => by simpa using hbefore j hj)
  refine ⟨h1, ?_⟩
  unfold create_weekly_doc
  rw [if_pos rfl, h1]
  simp

/-- Witness for C4's amended theorem at a concrete input. -/
theorem style_batch_failure_aborts_witness :
    create_weekly_doc "w" {} "url" true (fun _ => false) (fun _ => true)
      = Except.error "batchUpdate failed" :=
  (style_batch_failure_aborts "w" {} "url" (fun _ => false) (fun _ => true) 0
    (by decide) rfl (fun j hj => absurd hj (by omega))).2

/-! ## Field masks (C6) -/

/-- C6 counterexample: a StyleEvent with `alignment` (a paragraph-level
attribute) set but no `named_style` yields no requests at all — in
particular no paragraph-style update, because the source guards the
paragraph request on `ev.named_style` alone. -/
theorem field_mask_counterexample :
    ({ start := 0, «end» := 1, alignment := some "CENTER" } : StyleEvent).alignment.isSome
      = true
    ∧ deriveEventRequests { start := 0, «end» := 1, alignment := some "CENTER" } = [] := by
  constructor
  · rfl
  · rfl

/-- C6 (amended).  Style application emits a paragraph-style request exactly
when `named_style` is set (truthy), a text-style request exactly when some
character-level attribute (color, bold, italic, link) is set, and each
emitted request's field mask lists exactly the attributes actually set on
the event. -/
theorem style_request_field_masks (ev : StyleEvent) :
    ((∃ ps f, DocRequest.updateParagraphStyle (ev.start + 1) (ev.«end» + 1) ps f
        ∈ deriveEventRequests ev) ↔ strOptTruthy ev.named_style = true)
    ∧ ((∃ ts f, DocRequest.updateTextStyle (ev.start + 1) (ev.«end» + 1) ts f
        ∈ deriveEventRequests ev)
      ↔ (ev.color_rgb.isSome = true ∨ ev.bold = true ∨ ev.italic = true
          ∨ strOptTruthy ev.link_url = true))
    ∧ ("namedStyleType" ∈ paraFields ev ↔ strOptTruthy ev.named_style = true)
    ∧ ("alignment" ∈ paraFields ev ↔ strOptTruthy ev.alignment = true)
    ∧ ("spaceAbove" ∈ paraFields ev ↔ ev.space_above_pt ≠ 0)
    ∧ ("spaceBelow" ∈ paraFields ev ↔ ev.space_below_pt ≠ 0)
    ∧ ("foregroundColor" ∈ textFields ev ↔ ev.color_rgb.isSome = true)
    ∧ ("bold" ∈ textFields ev ↔ ev.bold = true)
    ∧ ("italic" ∈ textFields ev ↔ ev.italic = true)
    ∧ ("link" ∈ textFields ev ↔ strOptTruthy ev.link_url = true) := by
  refine ⟨?_, ?_, ?_, ?_, ?_, ?_, ?_, ?_, ?_, ?_⟩
  · constructor
    · rintro ⟨ps, f, hm⟩
      by_contra hn
      unfold deriveEventRequests at hm
      rw [if_neg hn] at hm
      simp at hm
    · intro hn
      refine ⟨paraStyleOf ev, paraFields ev, ?_⟩
      unfold deriveEventRequests
      rw [if_pos hn]
      simp
  · constructor
    · rintro ⟨ts, f, hm⟩
      unfold deriveEventRequests at hm
      rcases List.mem_append.1 hm with hm | hm
      · split at hm <;> simp_all
      · by_cases ht : hasTextStyle ev = true
        · simp only [hasTextStyle, Bool.or_eq_true] at ht
          tauto
        · rw [if_neg ht] at hm
          simp at hm
    · intro hset
      have ht : hasTextStyle ev = true := by
        simp only [hasTextStyle, Bool.or_eq_true]
        tauto
      refine ⟨textStyleOf ev, textFields ev, ?_⟩
      unfold deriveEventRequests
      rw [List.mem_append, if_pos ht]
      exact Or.inr (by simp)
  · unfold paraFields
    split_ifs <;> simp_all
  · unfold paraFields
    split_ifs <;> simp_all
  · unfold paraFields
    split_ifs <;> simp_all
  · unfold paraFields
    split_ifs <;> simp_all
  · unfold textFields
    split_ifs <;> simp_all
  · unfold textFields
    split_ifs <;> simp_all
  · unfold textFields
    split_ifs <;> simp_all
  · unfold textFields
    split_ifs <;> simp_all

/-! ## The shared image cursor (C3, C10) -/

/-- C3 counterexample: with `image_urls = [some "A", none, some "C"]` and the
cursor at position 1 (a `None` entry), the slot is skipped but the cursor
does NOT advance to 2 — it stays at 1, and the next slot considered
re-reads position 1, so `"C"` at position 2 is never consumed. -/
theorem none_url_cursor_counterexample :
    urlAt [some "A", none, some "C"] 1 = none
    ∧ (tryImageSlot [some "A", none, some "C"] {} 1).2 = 1
    ∧ (tryImageSlot [some "A", none, some "C"] {} 1).2 ≠ 1 + 1
    ∧ (tryImageSlot [some "A", none, some "C"]
        (tryImageSlot [some "A", none, some "C"] {} 1).1
        (tryImageSlot [some "A", none, some "C"] {} 1).2).2 = 1 := by
  refine ⟨rfl, rfl, by decide, rfl⟩

/-- C3 (amended).  Whenever the `image_urls` entry at the shared cursor is
`None` or missing, the slot under consideration is skipped (no ImageSlot is
emitted, the build state is unchanged) and the cursor does NOT advance: the
next slot considered re-examines the same list position. -/
theorem none_url_skips_without_advancing (image_urls : List (Option String))
    (st : BuildState) (image_idx : Nat) (h : urlAt image_urls image_idx = none) :
    tryImageSlot image_urls st image_idx = (st, image_idx) := by
  unfold tryImageSlot
  rw [h]
  simp [strOptTruthy]

/-- Witness for C3's amended theorem at a concrete input. -/
theorem none_url_skips_without_advancing_witness :
    tryImageSlot [none] {} 0 = ({}, 0) :=
  none_url_skips_without_advancing [none] {} 0 rfl

theorem tryImageSlot_snd_le (urls : List (Option String)) (st : BuildState) (idx : Nat) :
    idx ≤ (tryImageSlot urls st idx).2 := by
  unfold tryImageSlot
  split <;> simp

theorem tryImageSlot_congr {urls urlsB : List (Option String)}
    (hlen : urls.length = urlsB.length) {idx : Nat}
    (hagree : urlAt urls idx = urlAt urlsB idx) (st : BuildState) :
    tryImageSlot urls st idx = tryImageSlot urlsB st idx := by
  unfold tryImageSlot
  rw [hlen, hagree]

theorem foldl_renderSection_congr {urls urlsB : List (Option String)}
    (hlen : urls.length = urlsB.length) :
    ∀ (secs : List ScriptSection) (p : BuildState × Nat),
      (∀ j, p.2 ≤ j → urlAt urls j = urlAt urlsB j) →
      secs.foldl (renderSection urls) p = secs.foldl (renderSection urlsB) p
      ∧ p.2 ≤ (secs.foldl (renderSection urls) p).2
  | [], p, _ => ⟨rfl, le_rfl⟩
  | sec :: secs, p, h => by
      have he : renderSection urls p sec = renderSection urlsB p sec := by
        unfold renderSection
        exact tryImageSlot_congr hlen (h p.2 le_rfl) _
      have hle : p.2 ≤ (renderSection urls p sec).2 := by
        unfold renderSection
        exact tryImageSlot_snd_le _ _ _
      rw [List.foldl_cons, List.foldl_cons, ← he]
      have h2 : ∀ j, (renderSection urls p sec).2 ≤ j → urlAt urls j = urlAt urlsB j :=
        fun j hj => h j (le_trans hle hj)
      obtain ⟨he2, hle2⟩ := foldl_renderSection_congr hlen secs _ h2
      exact ⟨he2, le_trans hle hle2⟩

theorem render_script_section_congr {urls urlsB : List (Option String)}
    (hlen : urls.length = urlsB.length) (st : BuildState) (idx : Nat)
    (hagree : ∀ j, idx ≤ j → urlAt urls j = urlAt urlsB j)
    (label : String) (content : ScriptContent) :
    render_script_section urls st idx label content
      = render_script_section urlsB st idx label content
    ∧ idx ≤ (render_script_section urls st idx label content).2 := by
  unfold render_script_section
  have h1 : tryImageSlot urls
      (body (heading2 (heading1 st label COLOR_NAVY) "Intro" COLOR_BURGUNDY)
        content.intro false none) idx
      = tryImageSlot urlsB
      (body (heading2 (heading1 st label COLOR_NAVY) "Intro" COLOR_BURGUNDY)
        content.intro false none) idx :=
    tryImageSlot_congr hlen (hagree idx le_rfl) _
  have hle1 : idx ≤ (tryImageSlot urls
      (body (heading2 (heading1 st label COLOR_NAVY) "Intro" COLOR_BURGUNDY)
        content.intro false none) idx).2 := tryImageSlot_snd_le _ _ _
  have h2 : ∀ j, (tryImageSlot urls
      (body (heading2 (heading1 st label COLOR_NAVY) "Intro" COLOR_BURGUNDY)
        content.intro false none) idx).2 ≤ j → urlAt urls j = urlAt urlsB j :=
    fun j hj => hagree j (le_trans hle1 hj)
  obtain ⟨he2, hle2⟩ := foldl_renderSection_congr hlen content.sections _ h2
  dsimp only
  constructor
  · rw [he2, h1]
  · exact le_trans hle1 hle2

/-- C10.  If `shooting_plan` is empty, no filming-schedule placeholder is
emitted and `image_urls` position 0 is never consumed by any later section:
the shared cursor starts at 1 regardless, so the whole build output is
independent of the first image URL — it is silently dropped rather than
reassigned to a script-section slot. -/
theorem first_image_url_dropped_without_shooting_plan
    (week_start_date : String) (script : ScriptPackage)
    (u uB : Option String) (tl : List (Option String))
    (hplan : script.shooting_plan = []) :
    build_document_text week_start_date { script with image_urls := u :: tl }
      = build_document_text week_start_date { script with image_urls := uB :: tl } := by
  have hlen : (u :: tl).length = (uB :: tl).length := by simp
  have hagree : ∀ j, 1 ≤ j → urlAt (u :: tl) j = urlAt (uB :: tl) j := by
    intro j hj
    match j, hj with
    | j + 1, _ => simp [urlAt, List.getD_cons_succ]
  unfold build_document_text build_document_text_state
  dsimp only
  rw [hplan]
  dsimp only [List.enum_nil, List.foldl_nil]
  obtain ⟨he1, hle1⟩ := render_script_section_congr hlen
    (heading1 (emitEvent {}
      ("Vlaamse Chroniqueur — Week of " ++ week_start_date ++ ": " ++ script.topic ++ "\n")
      { start := 0, «end» := 0, named_style := some "TITLE", alignment := some "CENTER",
        space_below_pt := 10 }) "Filming Schedule" COLOR_NAVY) 1 hagree
    "Script — Nederlands" script.script_nl
  rw [he1]
  have hagree2 : ∀ j,
      (render_script_section (uB :: tl)
        (heading1 (emitEvent {}
          ("Vlaamse Chroniqueur — Week of " ++ week_start_date ++ ": "
            ++ script.topic ++ "\n")
          { start := 0, «end» := 0, named_style := some "TITLE", alignment := some "CENTER",
            space_below_pt := 10 }) "Filming Schedule" COLOR_NAVY) 1
        "Script — Nederlands" script.script_nl).2 ≤ j →
      urlAt (u :: tl) j = urlAt (uB :: tl) j := by
    intro j hj
    refine hagree j (le_trans ?_ hj)
    rw [← he1]
    exact hle1
  obtain ⟨he2, _⟩ := render_script_section_congr hlen _ _ hagree2
    "Script — English" script.script_en
  rw [he2]

/-- Witness for C10 at a concrete input. -/
theorem first_image_url_dropped_without_shooting_plan_witness :
    build_document_text "w" { ({} : ScriptPackage) with image_urls := some "X" :: [] }
      = build_document_text "w" { ({} : ScriptPackage) with image_urls := none :: [] } :=
  first_image_url_dropped_without_shooting_plan "w" {} (some "X") none [] rfl

end VlaamseChroniqueur
